import Mathlib

/-!
Verification development for the xBasic interpreter (Go).

Shallow embedding conventions:
* Go `int16`/`int32`/`int64` are modelled as `ℤ`; the narrowing conversions
  `int16(·)` / `int32(·)` are modelled by the two's-complement wraps
  `wrap16` / `wrap32` at exactly the places the Go source converts.
* Go `float32`/`float64` are modelled as `ℚ` (every finite float is a
  rational); float-to-integer conversion `int64(f)` is truncation toward
  zero (`truncQ`), as in Go.
* Go maps are modelled as association lists with first-match lookup
  (`List.lookup`) and in-place update (`upsert`).
* Go's `fmt.Sprintf("%d", n)` decimal rendering is modelled by `intRepr`.
-/

namespace XBasic

/-- `ast.DataType` (part_003): the BASIC data-type tags. -/
inductive DataType where
  | unknown
  | integer
  | long
  | single
  | double
  | str
deriving DecidableEq, Repr

/-- Go `int16(n)` applied to an `int64`: two's-complement wrap into
`[-2^15, 2^15)`. -/
def wrap16 (n : ℤ) : ℤ := (n + 2 ^ 15) % 2 ^ 16 - 2 ^ 15

/-- Go `int32(n)` applied to an `int64`: two's-complement wrap into
`[-2^31, 2^31)`. -/
def wrap32 (n : ℤ) : ℤ := (n + 2 ^ 31) % 2 ^ 32 - 2 ^ 31

/-- Go's float-to-integer conversion `int64(f)`: truncation toward zero. -/
def truncQ (q : ℚ) : ℤ := if 0 ≤ q then ⌊q⌋ else -⌊-q⌋

/-- One decimal digit as a character (used to model `fmt.Sprintf("%d", ·)`
and `strconv` digit output). -/
def digitChar (n : ℕ) : Char :=
  match n with
  | 0 => '0' | 1 => '1' | 2 => '2' | 3 => '3' | 4 => '4'
  | 5 => '5' | 6 => '6' | 7 => '7' | 8 => '8' | _ => '9'

/-- Decimal digits of a natural number, most significant first. -/
def natDigits (n : ℕ) : List Char :=
  if _h : n < 10 then [digitChar n]
  else natDigits (n / 10) ++ [digitChar (n % 10)]
decreasing_by exact Nat.div_lt_self (by omega) (by omega)

/-- Decimal rendering of a natural number. -/
def natRepr (n : ℕ) : String := String.mk (natDigits n)

/-- Go `fmt.Sprintf("%d", n)` for a signed integer. -/
def intRepr (n : ℤ) : String :=
  if n < 0 then "-" ++ natRepr n.natAbs else natRepr n.natAbs

/-- A string of `n` spaces: Go `strings.Repeat(" ", n)`. -/
def spacesStr (n : ℕ) : String := String.mk (List.replicate n ' ')

/-- Go `strings.ToUpper` as the interpreter uses it, i.e. on ASCII
identifier names (`Char.toUpper` uppercases exactly the ASCII range).
Defined by structural recursion over the character list so that it reduces
inside the kernel. -/
def toUpperGo (s : String) : String := String.mk (s.toList.map Char.toUpper)

/-- Numeric value of a list of decimal digit characters. -/
def digitsToNat (l : List Char) : ℕ :=
  l.foldl (fun acc c => acc * 10 + (c.toNat - 48)) 0

/-- Fractional decimal digits of `0 ≤ q < 1`, `fuel` digits, truncated. -/
def fracDigits (fuel : ℕ) (q : ℚ) : List Char :=
  match fuel with
  | 0 => []
  | fuel + 1 =>
    if q = 0 then []
    else digitChar (⌊q * 10⌋.toNat % 10) :: fracDigits fuel (q * 10 - ⌊q * 10⌋)

/-- Models `strconv.FormatFloat(f, 'G', -1, 64)` on a non-integral value:
sign, then the decimal expansion of the magnitude (integer part, a point,
and the fractional digits, exact for the dyadic rationals that are actual
floats, truncated at 17 places otherwise).  The claims proved below depend
only on the rendering being sign-led and never space-led, not on the exact
digit string of the shortest round-trip form. -/
def ratRepr (f : ℚ) : String :=
  (if f < 0 then "-" else "") ++
    natRepr ⌊|f|⌋.toNat ++ "." ++ String.mk (fracDigits 17 (|f| - ⌊|f|⌋))

/-- `formatFloat` (part_004, line 285): QBasic-style float display — an
integral value of magnitude below `1e15` renders as a decimal integer,
anything else through `FormatFloat 'G'` (modelled by `ratRepr`). -/
def formatFloat (f : ℚ) : String :=
  if (truncQ f : ℚ) = f ∧ |f| < 10 ^ 15 then intRepr (truncQ f) else ratRepr f

/-- All-decimal-digit check used by the string-to-number parsers. -/
def allDigits (l : List Char) : Bool := l.all (·.isDigit)

/-- Split a sign character off the front of a numeral. -/
def splitSign (l : List Char) : Bool × List Char :=
  match l with
  | '-' :: rest => (true, rest)
  | '+' :: rest => (false, rest)
  | _ => (false, l)

/-- Models `strconv.ParseInt(s, 10, 64)` with the error ignored, as the Go
source does: an optional sign followed by at least one decimal digit parses
to its value, anything else yields `0`.  (The Go range-error clamp at
`±2^63 − 1` is not modelled; no claim touches it.) -/
def parseIntZ (s : String) : ℤ :=
  let (neg, digits) := splitSign s.trim.toList
  if digits ≠ [] ∧ allDigits digits then
    if neg then -(digitsToNat digits : ℤ) else (digitsToNat digits : ℤ)
  else 0

/-- Mantissa part of `parseFloatQ`: digits with an optional single point. -/
def parseMantissa (l : List Char) : Option ℚ :=
  match l.splitOn '.' with
  | [intPart] =>
    if intPart ≠ [] ∧ allDigits intPart then some (digitsToNat intPart : ℚ)
    else none
  | [intPart, fracPart] =>
    if (intPart ≠ [] ∨ fracPart ≠ []) ∧ allDigits intPart ∧ allDigits fracPart then
      some ((digitsToNat intPart : ℚ) +
        (digitsToNat fracPart : ℚ) / (10 : ℚ) ^ fracPart.length)
    else none
  | _ => none

/-- Models `strconv.ParseFloat(s, 64)` with the error ignored, as the Go
source does: sign, decimal mantissa, optional `e`/`E` exponent; any other
form yields `0`.  (Hex floats and the non-finite spellings fall outside the
rational model and are not modelled; no claim touches them.) -/
def parseFloatQ (s : String) : ℚ :=
  let (neg, body) := splitSign s.trim.toList
  let mantExp : Option ℚ :=
    match body.splitOn 'e' with
    | [mant] =>
      match mant.splitOn 'E' with
      | [m] => parseMantissa m
      | [m, ex] =>
        match parseMantissa m with
        | some q =>
          let (eneg, edig) := splitSign ex
          if edig ≠ [] ∧ allDigits edig then
            some (if eneg then q / (10 : ℚ) ^ digitsToNat edig
                  else q * (10 : ℚ) ^ digitsToNat edig)
          else none
        | none => none
      | _ => none
    | [mant, ex] =>
      match parseMantissa mant with
      | some q =>
        let (eneg, edig) := splitSign ex
        if edig ≠ [] ∧ allDigits edig then
          some (if eneg then q / (10 : ℚ) ^ digitsToNat edig
                else q * (10 : ℚ) ^ digitsToNat edig)
        else none
      | none => none
    | _ => none
  match mantExp with
  | some q => if neg then -q else q
  | none => 0

/-- `Value` (part_004, line 13): the interpreter's runtime values.  The five
variants mirror `IntegerValue`, `LongValue`, `SingleValue`, `DoubleValue`
and `StringValue`. -/
inductive Value where
  | integer (val : ℤ)
  | long (val : ℤ)
  | single (val : ℚ)
  | double (val : ℚ)
  | str (val : String)
deriving DecidableEq, Repr

/-- The `Type()` method of each value variant. -/
def Value.type : Value → DataType
  | .integer _ => .integer
  | .long _ => .long
  | .single _ => .single
  | .double _ => .double
  | .str _ => .str

/-- The `ToFloat()` method: numeric payloads widen, strings parse through
`strconv.ParseFloat` of the trimmed text. -/
def Value.toFloat : Value → ℚ
  | .integer v => (v : ℚ)
  | .long v => (v : ℚ)
  | .single v => v
  | .double v => v
  | .str v => parseFloatQ v

/-- The `ToInt()` method: floats truncate toward zero (`int64(f)`), strings
parse through `strconv.ParseInt` of the trimmed text. -/
def Value.toInt : Value → ℤ
  | .integer v => v
  | .long v => v
  | .single v => truncQ v
  | .double v => truncQ v
  | .str v => parseIntZ v

/-- The `ToBool()` method. -/
def Value.toBool : Value → Bool
  | .integer v => v ≠ 0
  | .long v => v ≠ 0
  | .single v => v ≠ 0
  | .double v => v ≠ 0
  | .str v => v ≠ ""

/-- The `String()` / `ToString()` methods (identical per variant in the
source): `%d` for the integer kinds, `formatFloat` for the float kinds, the
payload itself for strings. -/
def Value.toStr : Value → String
  | .integer v => intRepr v
  | .long v => intRepr v
  | .single v => formatFloat v
  | .double v => formatFloat v
  | .str v => v

/-- `DefaultValue` (part_004, line 177). -/
def DefaultValue (dt : DataType) : Value :=
  match dt with
  | .integer => .integer 0
  | .long => .long 0
  | .single => .single 0
  | .double => .double 0
  | .str => .str ""
  | .unknown => .single 0

/-- `CoerceValue` (part_004, line 242): convert a value to a target type. -/
def CoerceValue (val : Value) (targetType : DataType) : Value :=
  if val.type = targetType then val
  else
    match targetType with
    | .integer => .integer (wrap16 val.toInt)
    | .long => .long (wrap32 val.toInt)
    | .single => .single val.toFloat
    | .double => .double val.toFloat
    | .str => .str val.toStr
    | .unknown => val

/-- `PromoteType` (part_004, line 264): string absorbs, otherwise the wider
of the two kinds under `Integer < Long < Single < Double`. -/
def PromoteType (t1 t2 : DataType) : DataType :=
  if t1 = .str ∨ t2 = .str then .str
  else
    let order : DataType → ℕ := fun t =>
      match t with
      | .integer => 1
      | .long => 2
      | .single => 3
      | .double => 4
      | _ => 0
    if order t1 > order t2 then t1 else t2

/-- `IsNumeric` (part_004, line 294). -/
def IsNumeric (v : Value) : Bool :=
  match v.type with
  | .integer | .long | .single | .double => true
  | _ => false

/-- `boolToValue` (part_004, line 2341): QBasic truth values. -/
def boolToValue (b : Bool) : Value :=
  if b then .integer (-1) else .integer 0

/-- `ArrayDimension` (part_004, line 102): one bound pair. -/
structure ArrayDimension where
  lower : ℤ
  upper : ℤ
deriving DecidableEq, Repr

/-- `Array` (part_004, line 95): element kind, bounds, row-major data.
Named `Arr` because `Array` is taken in Lean. -/
structure Arr where
  dataType : DataType
  dimensions : List ArrayDimension
  data : List Value
deriving DecidableEq, Repr

/-- `NewArray` (part_004, line 108): size is the product of the extents,
every slot starts at the default value of the element kind. -/
def NewArray (dt : DataType) (dims : List ArrayDimension) : Arr :=
  let size : ℤ := dims.foldl (fun acc d => acc * (d.upper - d.lower + 1)) 1
  { dataType := dt
    dimensions := dims
    data := List.replicate size.toNat (DefaultValue dt) }

/-- The loop of `Array.GetIndex` (part_004, line 139), which walks the
dimensions from last to first accumulating `index` and `multiplier`. -/
def getIndexLoop : List (ℤ × ArrayDimension) → ℤ → ℤ → Except String ℤ
  | [], index, _ => .ok index
  | (sub, dim) :: rest, index, multiplier =>
    if sub < dim.lower ∨ sub > dim.upper then
      .error ("subscript out of range: " ++ intRepr sub ++ " not in [" ++
        intRepr dim.lower ++ ", " ++ intRepr dim.upper ++ "]")
    else
      getIndexLoop rest (index + (sub - dim.lower) * multiplier)
        (multiplier * (dim.upper - dim.lower + 1))

/-- `Array.GetIndex` (part_004, line 130): dimension-count check, bounds
checks, row-major linear index. -/
def Arr.getIndex (a : Arr) (subscripts : List ℤ) : Except String ℤ :=
  if subscripts.length ≠ a.dimensions.length then
    .error ("wrong number of dimensions: expected " ++
      intRepr a.dimensions.length ++ ", got " ++ intRepr subscripts.length)
  else getIndexLoop (subscripts.zip a.dimensions).reverse 0 1

/-- `Array.Set` (part_004, line 165): compute the linear index and store the
value there.  Note the source stores `value` itself, with no coercion to the
array's element kind. -/
def Arr.set (a : Arr) (subscripts : List ℤ) (value : Value) : Except String Arr :=
  match a.getIndex subscripts with
  | .error e => .error e
  | .ok index => .ok { a with data := a.data.set index.toNat value }

/-- `Array.Get` (part_004, line 156).  When the dimensions are consistent
with the data the index is always inside `data`; the default value stands in
for Go's unreachable out-of-range panic. -/
def Arr.get (a : Arr) (subscripts : List ℤ) : Except String Value :=
  match a.getIndex subscripts with
  | .error e => .error e
  | .ok index => .ok (a.data.getD index.toNat (DefaultValue a.dataType))

/-- Replace the binding of `k` in an association list, or append it: the
effect of a Go map assignment `m[k] = v`. -/
def upsert {α : Type} (l : List (String × α)) (k : String) (v : α) :
    List (String × α) :=
  match l with
  | [] => [(k, v)]
  | (k', v') :: rest => if k' = k then (k, v) :: rest else (k', v') :: upsert rest k v

/-- `Environment` (part_004, line 336): scalar variables, arrays and
constants (case-folded keys), plus the optional parent scope.  The `shared`
module pointer is omitted: it duplicates the chain root and no claim proved
here touches `SetShared`. -/
inductive Environment : Type where
  | mk (vars : List (String × Value)) (arrays : List (String × Arr))
      (consts : List (String × Value)) (parent : Option Environment)

/-- `Environment.Get` (part_004, line 362): constants first, then local
variables, then the parent chain. -/
def Environment.get : Environment → String → Option Value
  | .mk vars _ consts parent, name₀ =>
    let name := toUpperGo name₀
    match List.lookup name consts with
    | some val => some val
    | none =>
      match List.lookup name vars with
      | some val => some val
      | none =>
        match parent with
        | some p => p.get name
        | none => none

/-- `Environment.Set` (part_004, line 384): writes to a name bound as a
constant are silently dropped; otherwise the local variable map is updated. -/
def Environment.set : Environment → String → Value → Environment
  | .mk vars arrs consts parent, name₀, val =>
    let name := toUpperGo name₀
    if (List.lookup name consts).isSome then .mk vars arrs consts parent
    else .mk (upsert vars name val) arrs consts parent

/-- `Environment.inferType` (part_004, line 425): data type from the name's
suffix character, defaulting to Single. -/
def Environment.inferType (name : String) : DataType :=
  match name.toList.getLast? with
  | none => .single
  | some c =>
    if c = '%' then .integer
    else if c = '&' then .long
    else if c = '!' then .single
    else if c = '#' then .double
    else if c = '$' then .str
    else .single

/-- `Environment.GetOrCreate` (part_004, line 407): return the existing
binding, or create one with the default value of the given kind (inferred
from the suffix when the kind is unknown).  Returns the value together with
the updated environment (the Go method mutates the receiver). -/
def Environment.getOrCreate (e : Environment) (name₀ : String) (dt : DataType) :
    Value × Environment :=
  let name := toUpperGo name₀
  match e.get name with
  | some val => (val, e)
  | none =>
    let dt' := if dt = .unknown then Environment.inferType name else dt
    let val := DefaultValue dt'
    (val, e.set name val)

/-- `Environment.DefineConst` (part_004, line 448): fails when the constant
already exists, otherwise records it. -/
def Environment.defineConst : Environment → String → Value → Except String Environment
  | .mk vars arrs consts parent, name₀, val =>
    let name := toUpperGo name₀
    if (List.lookup name consts).isSome then
      .error ("constant " ++ name ++ " already defined")
    else .ok (.mk vars arrs (upsert consts name val) parent)

/-- `Environment.GetArray` (part_004, line 460): local array map, then the
parent chain. -/
def Environment.getArray : Environment → String → Option Arr
  | .mk _ arrs _ parent, name₀ =>
    let name := toUpperGo name₀
    match List.lookup name arrs with
    | some arr => some arr
    | none =>
      match parent with
      | some p => p.getArray name
      | none => none

/-- The Go evaluator mutates an array in place through the pointer obtained
from `GetArray`; in the functional model this is re-binding the updated
array in the first scope of the chain that holds the name. -/
def Environment.updateArray : Environment → String → Arr → Environment
  | .mk vars arrs consts parent, name₀, arr =>
    let name := toUpperGo name₀
    if (List.lookup name arrs).isSome then
      .mk vars (upsert arrs name arr) consts parent
    else
      match parent with
      | some p => .mk vars arrs consts (some (p.updateArray name arr))
      | none => .mk vars arrs consts none

/-- `Environment.constants` accessor (for stating claims about `Set` and
`DefineConst`). -/
def Environment.constLookup : Environment → String → Option Value
  | .mk _ _ consts _, name => List.lookup (toUpperGo name) consts

/-- `truncQ` is the identity on integers. -/
theorem truncQ_intCast (n : ℤ) : truncQ (n : ℚ) = n := by
  unfold truncQ
  rcases le_or_lt 0 ((n : ℤ) : ℚ) with h | h
  · rw [if_pos h, Int.floor_intCast]
  · rw [if_neg (not_le.mpr h), ← Int.cast_neg, Int.floor_intCast]; ring

/-- `truncQ` agrees with the floor on non-negative arguments. -/
theorem truncQ_of_nonneg {q : ℚ} (h : 0 ≤ q) : truncQ q = ⌊q⌋ := by
  unfold truncQ; rw [if_pos h]

/-- The loop of `pow` (part_004, line 2365): exponentiation by repeated
squaring driven by the truncated exponent. -/
def powLoop (result base exp : ℚ) : ℚ :=
  if 0 < exp then
    powLoop (if Int.tmod (truncQ exp) 2 = 1 then result * base else result)
      (base * base) ((Int.tdiv (truncQ exp) 2 : ℤ) : ℚ)
  else result
termination_by 2 * (truncQ exp).toNat + (if 0 < exp then 1 else 0)
decreasing_by
  have hexp : (0 : ℚ) < exp := by assumption
  have ht : 0 ≤ truncQ exp := by
    rw [truncQ_of_nonneg hexp.le]; exact Int.floor_nonneg.mpr hexp.le
  rw [truncQ_intCast, Int.tdiv_eq_ediv ht (by omega), if_pos hexp]
  have hcast : (0 : ℚ) < ((truncQ exp / 2 : ℤ) : ℚ) ↔ 0 < truncQ exp / 2 := by
    exact_mod_cast Iff.rfl
  rcases le_or_lt 2 (truncQ exp) with h2 | h2
  · have hq : 1 ≤ truncQ exp / 2 := by omega
    rw [if_pos (hcast.mpr hq)]
    omega
  · have hq : truncQ exp / 2 = 0 := by omega
    rw [hq]
    norm_num

/-- `pow` (part_004, line 2354): the interpreter's own power routine — exact
results for exponents 0, 1, 2, a squaring loop on the truncated exponent
otherwise (so a fractional or negative general exponent does not behave like
`math.Pow`). -/
def pow (base exp : ℚ) : ℚ :=
  if exp = 0 then 1
  else if exp = 1 then base
  else if exp = 2 then base * base
  else powLoop 1 base exp

/-- The outcome of evaluating a binary operation: a value, the interpreter's
own error return, or an unrecovered Go runtime panic. -/
inductive EvalOutcome where
  | ok (v : Value)
  | error (msg : String)
  | panic (msg : String)
deriving DecidableEq, Repr

/-- `evaluateBinaryExpr` (part_004, line 2017) after both operands have been
evaluated (lines 2028–2108): string concatenation for `+` with a string
operand, string comparisons, then the numeric operators over the operands'
float values.  Go's `int64` division and modulus panic when the divisor is
zero; the `\\` and `MOD` branches therefore reach `panic` whenever the
divisor's float value passes the non-zero guard but truncates to zero. -/
def evaluateBinaryOp (op : String) (left right : Value) : EvalOutcome :=
  if op = "+" ∧ (left.type = .str ∨ right.type = .str) then
    .ok (.str (left.toStr ++ right.toStr))
  else if left.type = .str ∧ right.type = .str then
    let ls := left.toStr
    let rs := right.toStr
    if op = "=" then .ok (boolToValue (ls = rs))
    else if op = "<>" then .ok (boolToValue (ls ≠ rs))
    else if op = "<" then .ok (boolToValue (decide (ls < rs)))
    else if op = ">" then .ok (boolToValue (decide (rs < ls)))
    else if op = "<=" then .ok (boolToValue (decide (ls ≤ rs)))
    else if op = ">=" then .ok (boolToValue (decide (rs ≤ ls)))
    else .error ("invalid operator " ++ op ++ " for strings")
  else
    let lf := left.toFloat
    let rf := right.toFloat
    if op = "+" then .ok (.double (lf + rf))
    else if op = "-" then .ok (.double (lf - rf))
    else if op = "*" then .ok (.double (lf * rf))
    else if op = "/" then
      if rf = 0 then .error "division by zero"
      else .ok (.double (lf / rf))
    else if op = "\\" then
      if rf = 0 then .error "division by zero"
      else if truncQ rf = 0 then .panic "runtime error: integer divide by zero"
      else .ok (.long (wrap32 (Int.tdiv (truncQ lf) (truncQ rf))))
    else if op = "^" then .ok (.double (pow lf rf))
    else if op = "MOD" then
      if rf = 0 then .error "division by zero"
      else if truncQ rf = 0 then .panic "runtime error: integer divide by zero"
      else .ok (.long (wrap32 (Int.tmod (truncQ lf) (truncQ rf))))
    else if op = "=" then .ok (boolToValue (lf = rf))
    else if op = "<>" then .ok (boolToValue (lf ≠ rf))
    else if op = "<" then .ok (boolToValue (decide (lf < rf)))
    else if op = ">" then .ok (boolToValue (decide (rf < lf)))
    else if op = "<=" then .ok (boolToValue (decide (lf ≤ rf)))
    else if op = ">=" then .ok (boolToValue (decide (rf ≤ lf)))
    else if op = "AND" then .ok (.long (wrap32 (Int.land (truncQ lf) (truncQ rf))))
    else if op = "OR" then .ok (.long (wrap32 (Int.lor (truncQ lf) (truncQ rf))))
    else if op = "XOR" then .ok (.long (wrap32 (Int.xor (truncQ lf) (truncQ rf))))
    else if op = "EQV" then
      .ok (.long (wrap32 (Int.lnot (Int.xor (truncQ lf) (truncQ rf)))))
    else if op = "IMP" then
      .ok (.long (wrap32 (Int.lor (Int.lnot (truncQ lf)) (truncQ rf))))
    else .error ("unknown operator: " ++ op)

/-- `evaluateSubscripts` (part_004, line 2284) after the index expressions
have been evaluated: each value is taken to `int(val.ToInt())`. -/
def evaluateSubscripts (vals : List Value) : List ℤ :=
  vals.map Value.toInt

/-- The target of a LET statement, after the right-hand side and any
subscript expressions have been evaluated: `ast.Identifier`,
`ast.ArrayAccess`, or `ast.CallExpr` (an array access that the parser could
not distinguish from a function call). -/
inductive LetTarget where
  | identifier (name : String)
  | arrayAccess (name : String) (indices : List Value)
  | callExpr (function : String) (arguments : List Value)

/-- `executeLetStatement` (part_004, line 898) with the right-hand side and
subscripts already evaluated.  The array branches hand the evaluated value
to `Array.Set` unchanged — there is no `CoerceValue` on this path. -/
def executeLetStatement (env : Environment) (target : LetTarget) (value : Value) :
    Except String Environment :=
  match target with
  | .identifier name =>
    if (env.getArray name).isSome then
      .error ("array " ++ name ++ " requires subscripts")
    else .ok (env.set name value)
  | .arrayAccess name indices =>
    match env.getArray name with
    | none => .error ("array " ++ name ++ " not defined")
    | some arr =>
      match arr.set (evaluateSubscripts indices) value with
      | .error e => .error e
      | .ok arr' => .ok (env.updateArray name arr')
  | .callExpr fn args =>
    match env.getArray fn with
    | some arr =>
      match arr.set (evaluateSubscripts args) value with
      | .error e => .error e
      | .ok arr' => .ok (env.updateArray fn arr')
    | none => .error "cannot assign to function call"

/-- `formatValue` (part_004, line 2313): PRINT-context rendering — strings
pass through, a numeric value with non-negative payload gets a single
leading space, a negative one is its plain rendering (which starts with the
sign). -/
def formatValue (val : Value) : String :=
  match val with
  | .str v => v
  | .integer v => if 0 ≤ v then " " ++ intRepr v else intRepr v
  | .long v => if 0 ≤ v then " " ++ intRepr v else intRepr v
  | .single v => if 0 ≤ v then " " ++ formatFloat v else formatFloat v
  | .double v => if 0 ≤ v then " " ++ formatFloat v else formatFloat v

/-- `ast.PrintItem` (part_003, line 1209) with the expression already
evaluated (`none` models a nil expression; the parser in fact only emits
items carrying an expression).  The separator is `""`, `";"`, or `","`. -/
structure PrintItem where
  expression : Option Value
  separator : String

/-- The item loop of `executePrintStatement` (part_004, lines 949–970):
emit each formatted item, then nothing after `;`, or spaces up to the next
multiple of 14 columns after `,`.  `col` counts bytes, as Go `len` does. -/
def printLoop : List PrintItem → ℕ → String → ℕ × String
  | [], col, out => (col, out)
  | item :: rest, col, out =>
    let (col₁, out₁) :=
      match item.expression with
      | some v =>
        let str := formatValue v
        (col + str.utf8ByteSize, out ++ str)
      | none => (col, out)
    let (col₂, out₂) :=
      if item.separator = ";" then (col₁, out₁)
      else if item.separator = "," then
        let spaces := 14 - col₁ % 14
        (col₁ + spaces, out₁ ++ spacesStr spaces)
      else (col₁, out₁)
    printLoop rest col₂ out₂

/-- `executePrintStatement` (part_004, line 945) with the item expressions
already evaluated: run the item loop from column 0, then append the newline
unless the statement's `NoNewline` flag is set (the parser sets that flag
exactly when the item list ends in a trailing `,` or `;`). -/
def executePrintStatement (items : List PrintItem) (noNewline : Bool) : String :=
  let out := (printLoop items 0 "").2
  if noNewline then out else out ++ "\n"

/-- `ast.DataTypeFromSuffix` (part_003, line 1089). -/
def DataTypeFromSuffix (suffix : String) : DataType :=
  if suffix = "%" then .integer
  else if suffix = "&" then .long
  else if suffix = "!" then .single
  else if suffix = "#" then .double
  else if suffix = "$" then .str
  else .unknown

/-- Go `name[len(name)-1:]`: the final character as a string. -/
def lastCharStr (name : String) : String :=
  match name.toList.getLast? with
  | some c => String.mk [c]
  | none => ""

/-- The type hint `parseIdentifier` (parser.go, line 1514) attaches to an
identifier: the suffix-derived data type of its final character, or Unknown
for an empty name. -/
def parserTypeHint (name : String) : DataType :=
  if name = "" then .unknown else DataTypeFromSuffix (lastCharStr name)

/-- The identifier names `evaluate` (part_004, line 1971) intercepts as
parenthesis-free built-in calls. -/
def builtinNoParen : List String :=
  ["RND", "TIMER", "DATE$", "TIME$", "INKEY$", "_PI", "PI"]

/-- What evaluating an `ast.Identifier` produces: a value (with the possibly
extended environment), or a dispatch into the built-in registry / the file
table (`RND`, `TIMER`, …, `FREEFILE`), whose results live in host state
outside this model. -/
inductive IdentResult where
  | value (v : Value) (env : Environment)
  | builtinCall (name : String)

/-- The `ast.Identifier` case of `evaluate` (part_004, lines 1968–1987):
special-case the parenthesis-free built-ins, otherwise look the name up and
auto-create it with a default value when absent. -/
def evaluateIdentifier (env : Environment) (name : String) (typeHint : DataType) :
    IdentResult :=
  let upper := toUpperGo name
  if upper ∈ builtinNoParen then .builtinCall upper
  else if upper = "FREEFILE" then .builtinCall "FREEFILE"
  else
    match env.get name with
    | some val => .value val env
    | none =>
      let (val, env') := env.getOrCreate name typeHint
      .value val env'

/-- The statement shapes `executeRestoreStatement` distinguishes: a
`*ast.DataStmt` carrying its literal items, or any other statement. -/
inductive Stmt where
  | dataStmt (values : List String)
  | otherStmt
deriving DecidableEq, Repr

/-- The slice of `ast.Program` (part_003, lines 1125–1129) that RESTORE
reads: the statement array and the line-number and label side tables. -/
structure Program where
  statements : List Stmt
  lineNumbers : List (ℤ × ℕ)
  labels : List (String × ℕ)

/-- `parseLineNumber` (part_004, line 2348), which wraps
`fmt.Sscanf(s, "%d", &n)`: optional leading spaces and sign followed by at
least one decimal digit succeed with the value of the leading digit run;
anything else (a label name, in particular) fails. -/
def parseLineNumber (s : String) : Option ℤ :=
  let (neg, rest) := splitSign (s.toList.dropWhile (· = ' '))
  let digits := rest.takeWhile (·.isDigit)
  if digits = [] then none
  else some (if neg then -(digitsToNat digits : ℤ) else (digitsToNat digits : ℤ))

/-- The DATA-counting loop of `executeRestoreStatement` (part_004, lines
1537–1542): the number of DATA items contributed by DATA statements at
indices below `idx`. -/
def countDataBefore (stmts : List Stmt) (idx : ℕ) : ℕ :=
  ((stmts.take idx).map fun s =>
    match s with
    | .dataStmt values => values.length
    | .otherStmt => 0).sum

/-- `executeRestoreStatement` (part_004, line 1525), returning the new DATA
pointer: an empty target resets to zero; a target that parses as a line
number known to the line-number table counts the DATA items before it; any
other target — including a defined label, which the function never looks up
in `program.Labels` — returns the error. -/
def executeRestoreStatement (prog : Program) (target : String) : Except String ℕ :=
  if target = "" then .ok 0
  else
    let targetU := toUpperGo target
    match parseLineNumber targetU with
    | some lineNum =>
      match List.lookup lineNum prog.lineNumbers with
      | some idx => .ok (countDataBefore prog.statements idx)
      | none => .error ("undefined label or line number: " ++ target)
    | none => .error ("undefined label or line number: " ++ target)

end XBasic

namespace Builtins

open XBasic (DataType wrap16 wrap32 truncQ intRepr formatFloat parseFloatQ parseIntZ)

/-- `builtins.Value` (builtins.go, line 15): the registry's own value type.
Its string payload is the Go byte sequence (`List ℕ`), so that the
byte-level behaviour of `CHR$` / `ASC` / `LEN` is visible. -/
inductive BValue where
  | integer (val : ℤ)
  | long (val : ℤ)
  | single (val : ℚ)
  | double (val : ℚ)
  | str (val : List ℕ)
deriving DecidableEq, Repr

/-- Decode a byte string for the `strconv` parsers (faithful on the ASCII
numerals they accept). -/
def bytesToString (l : List ℕ) : String := String.mk (l.map Char.ofNat)

/-- Encode rendered ASCII output as bytes. -/
def strBytes (s : String) : List ℕ := s.toList.map Char.toNat

/-- The `ToFloat()` methods of builtins.go (lines 29–71). -/
def BValue.toFloat : BValue → ℚ
  | .integer v => (v : ℚ)
  | .long v => (v : ℚ)
  | .single v => v
  | .double v => v
  | .str v => parseFloatQ (bytesToString v)

/-- The `ToInt()` methods of builtins.go. -/
def BValue.toInt : BValue → ℤ
  | .integer v => v
  | .long v => v
  | .single v => truncQ v
  | .double v => truncQ v
  | .str v => parseIntZ (bytesToString v)

/-- The `ToString()` methods of builtins.go: `%d` for the integer kinds,
`%g` for the float kinds (modelled by the same display rendering as the
interpreter's `formatFloat`), the byte payload for strings. -/
def BValue.toStr : BValue → List ℕ
  | .integer v => strBytes (intRepr v)
  | .long v => strBytes (intRepr v)
  | .single v => strBytes (formatFloat v)
  | .double v => strBytes (formatFloat v)
  | .str v => v

/-- UTF-8 encoding of a code point: Go `string(rune(n))`.  (The callers
below guard `n ≤ 255`, so only the one- and two-byte branches are ever
reached; surrogate replacement is not modelled.) -/
def utf8EncodeChar (n : ℕ) : List ℕ :=
  if n < 0x80 then [n]
  else if n < 0x800 then [0xC0 + n / 64, 0x80 + n % 64]
  else if n < 0x10000 then
    [0xE0 + n / 4096, 0x80 + (n / 64) % 64, 0x80 + n % 64]
  else
    [0xF0 + n / 262144, 0x80 + (n / 4096) % 64, 0x80 + (n / 64) % 64, 0x80 + n % 64]

/-- `fnChr` (builtins.go, line 311): `CHR$` — guard the code point into
0..255, then return `string(rune(n))`, i.e. the UTF-8 encoding. -/
def fnChr (args : List BValue) : Except String BValue :=
  match args with
  | [] => .error "CHR$ requires 1 argument"
  | a :: _ =>
    let n := a.toInt
    if n < 0 ∨ n > 255 then .error "illegal function call"
    else .ok (.str (utf8EncodeChar n.toNat))

/-- `fnAsc` (builtins.go, line 322): `ASC` — the first byte of the string,
as a Long. -/
def fnAsc (args : List BValue) : Except String BValue :=
  match args with
  | [] => .error "ASC requires 1 argument"
  | a :: _ =>
    match a.toStr with
    | [] => .error "illegal function call"
    | b :: _ => .ok (.long (b : ℤ))

/-- `fnLen` (builtins.go, line 178): `LEN` — the byte length, as a Long. -/
def fnLen (args : List BValue) : Except String BValue :=
  match args with
  | [] => .error "LEN requires 1 argument"
  | a :: _ => .ok (.long (wrap32 a.toStr.length))

/-- `math.RoundToEven` on the rational model: round to the nearest integer,
ties to the even one. -/
def roundToEven (q : ℚ) : ℤ :=
  if q - ⌊q⌋ < 1 / 2 then ⌊q⌋
  else if 1 / 2 < q - ⌊q⌋ then ⌊q⌋ + 1
  else if ⌊q⌋ % 2 = 0 then ⌊q⌋ else ⌊q⌋ + 1

/-- `fnCInt` (builtins.go, line 520): `CINT` — banker's rounding of the
argument's float value, narrowed to Integer. -/
def fnCInt (args : List BValue) : Except String BValue :=
  match args with
  | [] => .error "CINT requires 1 argument"
  | a :: _ => .ok (.integer (wrap16 (roundToEven a.toFloat)))

/-- `fnCLng` (builtins.go, line 529): `CLNG` — banker's rounding of the
argument's float value, narrowed to Long. -/
def fnCLng (args : List BValue) : Except String BValue :=
  match args with
  | [] => .error "CLNG requires 1 argument"
  | a :: _ => .ok (.long (wrap32 (roundToEven a.toFloat)))

/-- `fnCDbl` (builtins.go, line 544): `CDBL` — the argument's float value as
a Double. -/
def fnCDbl (args : List BValue) : Except String BValue :=
  match args with
  | [] => .error "CDBL requires 1 argument"
  | a :: _ => .ok (.double a.toFloat)

end Builtins

namespace XBasic

/-- Looking up a key right after `upsert`ing it finds the new value. -/
theorem lookup_upsert_self {α : Type} (l : List (String × α)) (k : String) (v : α) :
    List.lookup k (upsert l k v) = some v := by
  induction l with
  | nil => simp [upsert, List.lookup]
  | cons hd tl ih =>
    obtain ⟨k', v'⟩ := hd
    by_cases h : k' = k
    · simp [upsert, h, List.lookup]
    · have hb : (k == k') = false := beq_eq_false_iff_ne.mpr fun hc => h hc.symm
      simp [upsert, if_neg h, List.lookup, hb, ih]

/-- C10: for a name bound as a constant, `Environment.Set` silently leaves
the environment unchanged (its return type cannot even report an error), a
subsequent read still sees the constant's old value, and only
`Environment.DefineConst` on the same name fails; `DefineConst` on a fresh
name succeeds and records the constant. -/
theorem c10_const_assignment_ignored :
    (∀ (env : Environment) (name : String) (val w : Value),
      env.constLookup name = some w →
      env.set name val = env ∧ (env.set name val).get name = some w)
    ∧ (∀ (env : Environment) (name : String) (val w : Value),
      env.constLookup name = some w →
      env.defineConst name val =
        .error ("constant " ++ toUpperGo name ++ " already defined"))
    ∧ (∀ (env : Environment) (name : String) (val : Value),
      env.constLookup name = none →
      ∃ env', env.defineConst name val = .ok env'
        ∧ env'.constLookup name = some val) := by
  refine ⟨?_, ?_, ?_⟩
  · intro env name val w h
    cases env with
    | mk vars arrs consts parent =>
      simp only [Environment.constLookup] at h
      have hs : Environment.set (.mk vars arrs consts parent) name val =
          .mk vars arrs consts parent := by
        unfold Environment.set
        simp only [h, Option.isSome_some, if_true]
      refine ⟨hs, ?_⟩
      rw [hs]
      unfold Environment.get
      simp only [h]
  · intro env name val w h
    cases env with
    | mk vars arrs consts parent =>
      simp only [Environment.constLookup] at h
      unfold Environment.defineConst
      simp only [h, Option.isSome_some, if_true]
  · intro env name val h
    cases env with
    | mk vars arrs consts parent =>
      simp only [Environment.constLookup] at h
      refine ⟨.mk vars arrs (upsert consts (toUpperGo name) val) parent, ?_, ?_⟩
      · unfold Environment.defineConst
        simp only [h, Option.isSome_none, Bool.false_eq_true, if_false]
      · simp only [Environment.constLookup]
        exact lookup_upsert_self consts (toUpperGo name) val

/-- C10 witness: a concrete environment with constant `PI`. -/
theorem c10_const_witness :
    (Environment.set (.mk [] [] [("PI", .double 3)] none) "PI" (.double 4) =
        .mk [] [] [("PI", .double 3)] none)
    ∧ (Environment.get (Environment.set (.mk [] [] [("PI", .double 3)] none)
        "PI" (.double 4)) "PI" = some (.double 3))
    ∧ Environment.defineConst (.mk [] [] [("PI", .double 3)] none) "PI" (.double 4) =
        .error ("constant " ++ toUpperGo "PI" ++ " already defined") := by
  obtain ⟨h1, h2⟩ := c10_const_assignment_ignored.1
    (.mk [] [] [("PI", .double 3)] none) "PI" (.double 4) (.double 3) (by decide)
  exact ⟨h1, h2, c10_const_assignment_ignored.2.1
    (.mk [] [] [("PI", .double 3)] none) "PI" (.double 4) (.double 3) (by decide)⟩

/-- A three-statement program whose label `L1` marks statement index 2,
with one DATA statement (two items) before it; its line-number table is
empty.  The input `RESTORE L1` on this program exercises the label path of
`executeRestoreStatement`. -/
def c4Program : Program :=
  { statements := [.dataStmt ["1", "2"], .otherStmt, .otherStmt]
    lineNumbers := []
    labels := [("L1", 2)] }

/-- A program with a DATA statement before and at line 20 (statement
index 2), for the line-number path of RESTORE. -/
def c4ProgramLine : Program :=
  { statements := [.dataStmt ["1", "2"], .otherStmt, .dataStmt ["3"]]
    lineNumbers := [(20, 2)]
    labels := [] }

/-- C4: `RESTORE` with no argument resets the DATA pointer to zero and
`RESTORE 20` counts the DATA items before the targeted statement, but
`RESTORE L1` fails with "undefined label or line number" even though the
label `L1` is defined in the program's label table — the function never
consults `program.Labels`, while the spec (and the GOTO implementation,
which resolves the same table) treats labels as valid targets. -/
theorem c4_restore_label_ignored :
    executeRestoreStatement c4Program "" = .ok 0
    ∧ executeRestoreStatement c4ProgramLine "20" = .ok 2
    ∧ countDataBefore c4ProgramLine.statements 2 = 2
    ∧ List.lookup "L1" c4Program.labels = some 2
    ∧ countDataBefore c4Program.statements 2 = 2
    ∧ executeRestoreStatement c4Program "L1" =
        .error "undefined label or line number: L1" :=
  ⟨rfl, rfl, by decide, by decide, by decide, rfl⟩

/-- C3: with numeric operands, `/`, `\` and `MOD` all fail with the
division-by-zero error (and produce no value) whenever the divisor's float
value is zero, and `/` with a non-zero divisor returns the quotient as a
Double. -/
theorem c3_division_by_zero_errors :
    (∀ (op : String) (l r : Value), op ∈ ["/", "\\", "MOD"] →
      IsNumeric l → IsNumeric r → r.toFloat = 0 →
      evaluateBinaryOp op l r = .error "division by zero")
    ∧ (∀ l r : Value, IsNumeric l → IsNumeric r → r.toFloat ≠ 0 →
      evaluateBinaryOp "/" l r = .ok (.double (l.toFloat / r.toFloat))) := by
  refine ⟨?_, ?_⟩
  · intro op l r hop hl hr hz
    simp only [List.mem_cons, List.mem_singleton, List.not_mem_nil, or_false] at hop
    rcases hop with rfl | rfl | rfl <;>
      cases l <;> cases r <;>
      simp_all [evaluateBinaryOp, IsNumeric, Value.type, Value.toFloat]
  · intro l r hl hr hz
    cases l <;> cases r <;>
      simp_all [evaluateBinaryOp, IsNumeric, Value.type, Value.toFloat]

/-- C3 witness: concrete zero and non-zero divisors. -/
theorem c3_division_witness :
    evaluateBinaryOp "/" (.integer 1) (.integer 0) = .error "division by zero"
    ∧ evaluateBinaryOp "\\" (.long 5) (.double 0) = .error "division by zero"
    ∧ evaluateBinaryOp "MOD" (.single 5) (.integer 0) = .error "division by zero"
    ∧ evaluateBinaryOp "/" (.integer 7) (.integer 2) =
        .ok (.double ((Value.integer 7).toFloat / (Value.integer 2).toFloat)) :=
  ⟨c3_division_by_zero_errors.1 "/" _ _ (by decide) (by decide) (by decide)
      (by norm_num [Value.toFloat]),
   c3_division_by_zero_errors.1 "\\" _ _ (by decide) (by decide) (by decide)
      (by norm_num [Value.toFloat]),
   c3_division_by_zero_errors.1 "MOD" _ _ (by decide) (by decide) (by decide)
      (by norm_num [Value.toFloat]),
   c3_division_by_zero_errors.2 _ _ (by decide) (by decide)
      (by norm_num [Value.toFloat])⟩

/-- C8: the `\` and `MOD` guards compare the divisor's float value with
zero, but the operations divide the truncated operands; whenever the float
value is non-zero while its truncation is zero the guard passes and the Go
`int64` division panics (modelled by the `panic` outcome) — and every
divisor with `0 < |b| < 1` is such a value. -/
theorem c8_intdiv_guard_gap :
    (∀ l r : Value, IsNumeric l → IsNumeric r →
      r.toFloat ≠ 0 → truncQ r.toFloat = 0 →
      evaluateBinaryOp "\\" l r = .panic "runtime error: integer divide by zero"
      ∧ evaluateBinaryOp "MOD" l r = .panic "runtime error: integer divide by zero")
    ∧ (∀ q : ℚ, q ≠ 0 → |q| < 1 → q ≠ 0 ∧ truncQ q = 0) := by
  refine ⟨?_, ?_⟩
  · intro l r hl hr hz ht
    constructor <;>
      cases l <;> cases r <;>
      simp_all [evaluateBinaryOp, IsNumeric, Value.type, Value.toFloat]
  · intro q hne habs
    refine ⟨hne, ?_⟩
    unfold truncQ
    rcases le_or_lt 0 q with h | h
    · rw [if_pos h]
      exact Int.floor_eq_zero_iff.mpr ⟨h, by rwa [abs_of_nonneg h] at habs⟩
    · rw [if_neg (not_le.mpr h)]
      have h0 : ⌊-q⌋ = 0 := by
        refine Int.floor_eq_zero_iff.mpr ⟨by linarith, ?_⟩
        rw [abs_of_neg h] at habs
        simpa using habs
      rw [h0]
      simp

/-- C8 witness: divisor 1/2 passes the zero guard yet truncates to zero, so
both integer operations panic. -/
theorem c8_intdiv_guard_gap_witness :
    evaluateBinaryOp "\\" (.integer 1) (.double (1/2)) =
        .panic "runtime error: integer divide by zero"
    ∧ evaluateBinaryOp "MOD" (.integer 1) (.double (1/2)) =
        .panic "runtime error: integer divide by zero"
    ∧ ((1 : ℚ)/2 ≠ 0 ∧ truncQ (1/2) = 0) := by
  have hq := c8_intdiv_guard_gap.2 (1/2) (by norm_num)
    (by rw [abs_of_nonneg (by norm_num : (0:ℚ) ≤ 1/2)]; norm_num)
  have h1 := c8_intdiv_guard_gap.1 (.integer 1) (.double (1/2))
    (by decide) (by decide)
    (by simp only [Value.toFloat]; exact hq.1)
    (by simp only [Value.toFloat]; exact hq.2)
  exact ⟨h1.1, h1.2, hq⟩

end XBasic


namespace XBasic

/-- An environment holding a one-dimensional Integer array `A%` with bounds
0..10, as `DIM A%(10)` creates it. -/
def c1Env : Environment :=
  .mk [] [("A%", NewArray .integer [⟨0, 10⟩])] [] none

/-- Extract the element stored at linear index `i` of array `name` from the
result of a LET statement (for stating the C1 counterexample). -/
def letResultElem (r : Except String Environment) (name : String) (i : ℕ) :
    Option Value :=
  match r with
  | .ok env =>
    match env.getArray name with
    | some arr => arr.data.get? i
    | none => none
  | .error _ => none

/-- C1 counterexample: `LET A%(1) = 1.5` on the Integer array `A%` stores
the Double value 1.5 itself.  The stored element's kind is Double, not the
array's declared Integer kind, and the stored value differs from what
coercion to the array's kind (`CoerceValue`, which would give Integer 1)
would have produced — refuting both the claimed coercion and the claimed
every-element-has-the-declared-kind invariant. -/
theorem c1_let_array_counterexample :
    letResultElem
        (executeLetStatement c1Env (.arrayAccess "A%" [.integer 1]) (.double (3/2)))
        "A%" 1 = some (.double (3/2))
    ∧ (Value.double (3/2)).type = .double
    ∧ (NewArray DataType.integer [⟨0, 10⟩]).dataType = .integer
    ∧ DataType.double ≠ DataType.integer
    ∧ CoerceValue (.double (3/2)) .integer = .integer 1
    ∧ Value.double (3/2) ≠ Value.integer 1 := by
  have htr : truncQ (3/2 : ℚ) = 1 := by
    rw [truncQ_of_nonneg (by norm_num)]; norm_num
  refine ⟨rfl, rfl, rfl, by decide, ?_, by simp⟩
  unfold CoerceValue
  rw [if_neg (by decide)]
  show Value.integer (wrap16 ((Value.double (3/2)).toInt)) = .integer 1
  simp only [Value.toInt, htr]
  norm_num [wrap16]

/-- C1 amended: in a LET with a subscripted array target, once the array is
found and the evaluated subscripts are in range, the evaluated right-hand
side is stored at the computed element unchanged — no coercion to the
array's element kind takes place, so the stored element's kind is the
right-hand side's kind. -/
theorem c1_let_array_stores_uncoerced :
    ∀ (env : Environment) (name : String) (indices : List Value) (value : Value)
      (arr : Arr) (idx : ℤ),
      env.getArray name = some arr →
      arr.getIndex (evaluateSubscripts indices) = .ok idx →
      executeLetStatement env (.arrayAccess name indices) value =
        .ok (env.updateArray name { arr with data := arr.data.set idx.toNat value }) := by
  intro env name indices value arr idx h1 h2
  simp only [executeLetStatement, h1, Arr.set, h2]

/-- C1 witness: the amended statement applied to the concrete Integer
array. -/
theorem c1_let_array_witness :
    executeLetStatement c1Env (.arrayAccess "A%" [.integer 1]) (.double (3/2)) =
      .ok (c1Env.updateArray "A%"
        { NewArray .integer [⟨0, 10⟩] with
            data := (NewArray .integer [⟨0, 10⟩]).data.set 1 (.double (3/2)) }) :=
  c1_let_array_stores_uncoerced c1Env "A%" [.integer 1] (.double (3/2))
    (NewArray .integer [⟨0, 10⟩]) 1 rfl rfl

end XBasic

namespace XBasic

/-- C2 counterexample: adding two Integer values yields a Double — the
result kind of `1% + 2%` is Double, not the promoted kind Integer that
`PromoteType` (the wider-of ordering) prescribes. -/
theorem c2_promote_counterexample :
    evaluateBinaryOp "+" (.integer 1) (.integer 2) = .ok (.double 3)
    ∧ PromoteType (Value.integer 1).type (Value.integer 2).type = .integer
    ∧ (Value.double 3).type ≠ DataType.integer := by
  refine ⟨?_, by decide, by decide⟩
  have h : evaluateBinaryOp "+" (.integer 1) (.integer 2) =
      .ok (.double ((Value.integer 1).toFloat + (Value.integer 2).toFloat)) := rfl
  rw [h]
  norm_num [Value.toFloat]

set_option maxHeartbeats 2000000 in
/-- C2 amended: the result kind of a binary operation is fixed by the
operator, not promoted from the operand kinds — `+ - * / ^` on numeric
operands return Double, `\ MOD AND OR XOR EQV IMP` return Long, and the
comparisons return Integer truth values; `+` with a string operand returns
a String concatenation, while comparisons of two strings also return
Integer, not String.  `PromoteType` does implement the
`Integer < Long < Single < Double` ordering with string absorption, but
`evaluateBinaryExpr` never calls it. -/
theorem c2_operator_determined_kinds :
    (∀ (op : String) (l r v : Value), op ∈ ["+", "-", "*", "/", "^"] →
      IsNumeric l → IsNumeric r →
      evaluateBinaryOp op l r = .ok v → v.type = .double)
    ∧ (∀ (op : String) (l r v : Value),
      op ∈ ["\\", "MOD", "AND", "OR", "XOR", "EQV", "IMP"] →
      IsNumeric l → IsNumeric r →
      evaluateBinaryOp op l r = .ok v → v.type = .long)
    ∧ (∀ (op : String) (l r v : Value), op ∈ ["=", "<>", "<", ">", "<=", ">="] →
      IsNumeric l → IsNumeric r →
      evaluateBinaryOp op l r = .ok v → v.type = .integer)
    ∧ (∀ l r v : Value, l.type = .str ∨ r.type = .str →
      evaluateBinaryOp "+" l r = .ok v → v.type = .str)
    ∧ (∀ (op : String) (s t : String) (v : Value),
      op ∈ ["=", "<>", "<", ">", "<=", ">="] →
      evaluateBinaryOp op (.str s) (.str t) = .ok v → v.type = .integer)
    ∧ (PromoteType .integer .integer = .integer ∧ PromoteType .integer .long = .long
      ∧ PromoteType .long .single = .single ∧ PromoteType .single .double = .double
      ∧ PromoteType .str .double = .str) := by
  refine ⟨?_, ?_, ?_, ?_, ?_, by decide, by decide, by decide, by decide, by decide⟩
  · intro op l r v hop hl hr h
    simp only [List.mem_cons, List.mem_singleton, List.not_mem_nil, or_false] at hop
    rcases hop with rfl | rfl | rfl | rfl | rfl <;>
      cases l <;> cases r <;>
      simp_all [evaluateBinaryOp, IsNumeric, Value.type] <;>
      (try split at h) <;> (try simp_all [Value.type]) <;>
      (try subst h) <;> (try simp_all [Value.type])
  · intro op l r v hop hl hr h
    simp only [List.mem_cons, List.mem_singleton, List.not_mem_nil, or_false] at hop
    rcases hop with rfl | rfl | rfl | rfl | rfl | rfl | rfl <;>
      cases l <;> cases r <;>
      simp_all [evaluateBinaryOp, IsNumeric, Value.type] <;>
      (try split at h) <;> (try simp_all [Value.type]) <;>
      (try split at h) <;> (try simp_all [Value.type]) <;>
      (try subst h) <;> (try simp_all [Value.type])
  · intro op l r v hop hl hr h
    simp only [List.mem_cons, List.mem_singleton, List.not_mem_nil, or_false] at hop
    rcases hop with rfl | rfl | rfl | rfl | rfl | rfl <;>
      cases l <;> cases r <;>
      simp_all [evaluateBinaryOp, IsNumeric, Value.type, boolToValue] <;>
      (try split at h) <;> (try simp_all [Value.type]) <;>
      (try subst h) <;> (try simp_all [Value.type])
  · intro l r v hs h
    cases l <;> cases r <;> simp_all [evaluateBinaryOp, Value.type] <;>
      (try subst h) <;> (try simp_all [Value.type])
  · intro op s t v hop h
    simp only [List.mem_cons, List.mem_singleton, List.not_mem_nil, or_false] at hop
    rcases hop with rfl | rfl | rfl | rfl | rfl | rfl <;>
      simp_all [evaluateBinaryOp, Value.type, boolToValue] <;>
      (try split at h) <;> (try simp_all [Value.type]) <;>
      (try subst h) <;> (try simp_all [Value.type])

/-- C2 witness: the operator-determined kinds at concrete operands. -/
theorem c2_operator_kinds_witness :
    (Value.double ((Value.integer 1).toFloat + (Value.integer 1).toFloat)).type = .double
    ∧ (Value.long (wrap32 (Int.land (truncQ (Value.integer 3).toFloat)
        (truncQ (Value.integer 5).toFloat)))).type = .long
    ∧ (Value.integer (-1)).type = .integer
    ∧ (Value.str ((Value.str "a").toStr ++ (Value.integer 1).toStr)).type = .str := by
  have h3 : evaluateBinaryOp "=" (.integer 1) (.integer 1) = .ok (.integer (-1)) := by
    simp [evaluateBinaryOp, Value.type, Value.toFloat, boolToValue]
  refine ⟨?_, ?_, ?_, ?_⟩
  · exact c2_operator_determined_kinds.1 "+" (.integer 1) (.integer 1) _
      (by decide) (by decide) (by decide) rfl
  · exact c2_operator_determined_kinds.2.1 "AND" (.integer 3) (.integer 5) _
      (by decide) (by decide) (by decide) rfl
  · exact c2_operator_determined_kinds.2.2.1 "=" (.integer 1) (.integer 1) _
      (by decide) (by decide) (by decide) h3
  · exact c2_operator_determined_kinds.2.2.2.1 (.str "a") (.integer 1) _
      (by decide) rfl

end XBasic

namespace Builtins

/-- C9 counterexample: the round-trip `ASC(CHR$(n)) = n` also holds at
`n = 195` (the first UTF-8 byte of U+00C3 is 0xC3 = 195 itself), so it does
not hold *exactly* for `0 ≤ n ≤ 127`. -/
theorem c9_chr_asc_counterexample :
    (do let c ← fnChr [.long 195]; fnAsc [c] : Except String BValue) = .ok (.long 195)
    ∧ ¬ ((195 : ℕ) ≤ 127) :=
  ⟨rfl, by decide⟩

/-- C9 amended: `CHR$(n)` returns the UTF-8 encoding of code point `n`;
for `128 ≤ n ≤ 255` that is the two bytes `[0xC0 + n/64, 0x80 + n%64]`, so
`LEN(CHR$(n)) = 2` and `ASC(CHR$(n))` returns the first UTF-8 byte
`192 + n/64`, which equals `n` exactly at `n = 195`; the round-trip
`ASC(CHR$(n)) = n` holds for `0 ≤ n ≤ 127` and additionally at `n = 195`. -/
theorem c9_chr_asc_roundtrip :
    (∀ n : ℕ, 128 ≤ n → n ≤ 255 →
      fnChr [.long (n : ℤ)] = .ok (.str (utf8EncodeChar n))
      ∧ (utf8EncodeChar n).length = 2
      ∧ (do let c ← fnChr [.long (n : ℤ)]; fnLen [c]) = .ok (.long 2)
      ∧ (do let c ← fnChr [.long (n : ℤ)]; fnAsc [c]) =
          .ok (.long ((192 + n / 64 : ℕ) : ℤ))
      ∧ (192 + n / 64 = n ↔ n = 195))
    ∧ (∀ n : ℕ, n ≤ 127 →
      (do let c ← fnChr [.long (n : ℤ)]; fnAsc [c]) = .ok (.long (n : ℤ))) := by
  constructor
  · intro n h1 h2
    have hchr : fnChr [.long (n : ℤ)] = .ok (.str (utf8EncodeChar n)) := by
      simp only [fnChr, BValue.toInt]
      rw [if_neg (by omega)]
      simp [Int.toNat_natCast]
    have henc : utf8EncodeChar n = [192 + n / 64, 128 + n % 64] := by
      unfold utf8EncodeChar
      rw [if_neg (by omega), if_pos (by omega)]
    refine ⟨hchr, by rw [henc]; rfl, ?_, ?_, by omega⟩
    · rw [hchr]
      show fnLen [.str (utf8EncodeChar n)] = .ok (.long 2)
      simp only [fnLen, BValue.toStr, henc]
      norm_num [XBasic.wrap32]
    · rw [hchr]
      show fnAsc [.str (utf8EncodeChar n)] = .ok (.long ((192 + n / 64 : ℕ) : ℤ))
      rw [henc]
      rfl
  · intro n h
    have hchr : fnChr [.long (n : ℤ)] = .ok (.str (utf8EncodeChar n)) := by
      simp only [fnChr, BValue.toInt]
      rw [if_neg (by omega)]
      simp [Int.toNat_natCast]
    have henc : utf8EncodeChar n = [n] := by
      unfold utf8EncodeChar
      rw [if_pos (by omega)]
    rw [hchr]
    show fnAsc [.str (utf8EncodeChar n)] = .ok (.long (n : ℤ))
    rw [henc]
    rfl

/-- C9 witness: the amended statement at code points 130 and 65. -/
theorem c9_chr_asc_witness :
    (do let c ← fnChr [.long (130 : ℤ)]; fnLen [c]) = .ok (.long 2)
    ∧ (do let c ← fnChr [.long (65 : ℤ)]; fnAsc [c]) = .ok (.long (65 : ℤ)) := by
  have h1 := (c9_chr_asc_roundtrip.1 130 (by norm_num) (by norm_num)).2.2.1
  have h2 := c9_chr_asc_roundtrip.2 65 (by norm_num)
  constructor
  · exact_mod_cast h1
  · exact_mod_cast h2

end Builtins

namespace Builtins

/-- C6: `CINT` and `CLNG` apply banker's rounding — the rounded value is
within 1/2 of the argument and a tie (fractional part exactly 1/2) rounds
to the even integer — and consequently `CINT(CDBL(x)) = x` for every
integer `x` in the Integer range `[-32768, 32767]`. -/
theorem c6_cint_bankers_rounding :
    (∀ q : ℚ, |((roundToEven q : ℤ) : ℚ) - q| ≤ 1/2)
    ∧ (∀ q : ℚ, q - ⌊q⌋ = 1/2 → roundToEven q % 2 = 0)
    ∧ (∀ a : BValue, fnCInt [a] = .ok (.integer (XBasic.wrap16 (roundToEven a.toFloat))))
    ∧ (∀ a : BValue, fnCLng [a] = .ok (.long (XBasic.wrap32 (roundToEven a.toFloat))))
    ∧ (∀ x : ℤ, -32768 ≤ x → x ≤ 32767 →
      (do let d ← fnCDbl [.integer x]; fnCInt [d]) = .ok (.integer x)) := by
  have hfrac : ∀ q : ℚ, (0:ℚ) ≤ q - ⌊q⌋ ∧ q - ⌊q⌋ < 1 := fun q =>
    ⟨sub_nonneg.mpr (Int.floor_le q), by linarith [Int.lt_floor_add_one q]⟩
  refine ⟨?_, ?_, fun a => rfl, fun a => rfl, ?_⟩
  · intro q
    obtain ⟨h0, h1⟩ := hfrac q
    unfold roundToEven
    by_cases hlt : q - (⌊q⌋ : ℚ) < 1/2
    · rw [if_pos hlt, abs_le]; constructor <;> linarith
    · rw [if_neg hlt]
      by_cases hgt : (1/2 : ℚ) < q - ⌊q⌋
      · rw [if_pos hgt, abs_le]; push_cast; constructor <;> linarith
      · rw [if_neg hgt]
        have heq : q - (⌊q⌋ : ℚ) = 1/2 := le_antisymm (not_lt.mp hgt) (not_lt.mp hlt)
        by_cases hev : ⌊q⌋ % 2 = 0
        · rw [if_pos hev, abs_le]; constructor <;> linarith
        · rw [if_neg hev, abs_le]; push_cast; constructor <;> linarith
  · intro q h
    unfold roundToEven
    rw [if_neg (by rw [h]; norm_num), if_neg (by rw [h]; norm_num)]
    by_cases hev : ⌊q⌋ % 2 = 0
    · rw [if_pos hev]; exact hev
    · rw [if_neg hev]; omega
  · intro x hlo hhi
    have hrte : roundToEven ((x : ℤ) : ℚ) = x := by
      unfold roundToEven
      rw [Int.floor_intCast, if_pos (by simp)]
    have h15 : ((2:ℤ)^15 : ℤ) = 32768 := by norm_num
    have h16 : ((2:ℤ)^16 : ℤ) = 65536 := by norm_num
    have hw : XBasic.wrap16 x = x := by
      unfold XBasic.wrap16
      rw [h15, h16]
      omega
    show fnCInt [.double ((x : ℤ) : ℚ)] = .ok (.integer x)
    have hstep : fnCInt [.double ((x : ℤ) : ℚ)] =
        .ok (.integer (XBasic.wrap16 (roundToEven ((x : ℤ) : ℚ)))) := rfl
    rw [hstep, hrte, hw]

/-- C6 witness: rounding 2.5 (a tie, rounds to even 2) and the round trip
at 7. -/
theorem c6_cint_witness :
    |((roundToEven (5/2 : ℚ) : ℤ) : ℚ) - 5/2| ≤ 1/2
    ∧ roundToEven (5/2 : ℚ) % 2 = 0
    ∧ fnCInt [.double (5/2)] =
        .ok (.integer (XBasic.wrap16 (roundToEven (BValue.double (5/2)).toFloat)))
    ∧ (do let d ← fnCDbl [.integer 7]; fnCInt [d]) = .ok (.integer 7) :=
  ⟨c6_cint_bankers_rounding.1 (5/2),
   c6_cint_bankers_rounding.2.1 (5/2) (by norm_num),
   c6_cint_bankers_rounding.2.2.1 (.double (5/2)),
   c6_cint_bankers_rounding.2.2.2.2 7 (by norm_num) (by norm_num)⟩

end Builtins

namespace XBasic

/-- Singleton strings are equal exactly when their characters are. -/
theorem mk_singleton_eq_iff (c d : Char) : String.mk [c] = String.mk [d] ↔ c = d := by
  constructor
  · intro h
    have := congrArg String.data h
    injection this with h1 _
  · intro h; rw [h]

/-- `Environment.inferType` agrees with the suffix map: the suffix-derived
data type when the final character is a type suffix, Single otherwise. -/
theorem inferType_eq (s : String) :
    Environment.inferType s =
      (if DataTypeFromSuffix (lastCharStr s) = .unknown then .single
       else DataTypeFromSuffix (lastCharStr s)) := by
  unfold Environment.inferType lastCharStr
  cases hl : s.toList.getLast? with
  | none => decide
  | some c =>
    have e1 : ("%" : String) = String.mk ['%'] := rfl
    have e2 : ("&" : String) = String.mk ['&'] := rfl
    have e3 : ("!" : String) = String.mk ['!'] := rfl
    have e4 : ("#" : String) = String.mk ['#'] := rfl
    have e5 : ("$" : String) = String.mk ['$'] := rfl
    simp only [DataTypeFromSuffix, e1, e2, e3, e4, e5, mk_singleton_eq_iff]
    by_cases h1 : c = '%' <;> by_cases h2 : c = '&' <;> by_cases h3 : c = '!' <;>
      by_cases h4 : c = '#' <;> by_cases h5 : c = '$' <;>
      simp [h1, h2, h3, h4, h5]

end XBasic

namespace XBasic

/-- C7: evaluating an undeclared scalar identifier (that is not one of the
parenthesis-free built-in names) never fails — the variable materialises in
the environment holding the default value of its kind (`0`, `0.0`, or the
empty string), where the kind comes from the name's type suffix
`% & ! # $` when present and defaults to Single otherwise, and a subsequent
read of the same name finds that value.  (The two idempotence/suffix
hypotheses about `toUpperGo` hold for every string and are discharged by
computation at any concrete name.) -/
theorem c7_auto_vivification :
    ∀ (env : Environment) (name : String),
      name ≠ "" →
      toUpperGo name ∉ builtinNoParen →
      toUpperGo name ≠ "FREEFILE" →
      env.get name = none →
      env.get (toUpperGo name) = none →
      toUpperGo (toUpperGo name) = toUpperGo name →
      DataTypeFromSuffix (lastCharStr (toUpperGo name)) =
        DataTypeFromSuffix (lastCharStr name) →
      ∃ kind : DataType,
        kind = (if DataTypeFromSuffix (lastCharStr name) = .unknown then .single
                else DataTypeFromSuffix (lastCharStr name))
        ∧ evaluateIdentifier env name (parserTypeHint name) =
            .value (DefaultValue kind) (env.set (toUpperGo name) (DefaultValue kind))
        ∧ (env.set (toUpperGo name) (DefaultValue kind)).get name =
            some (DefaultValue kind)
        ∧ (DefaultValue .integer = .integer 0 ∧ DefaultValue .long = .long 0
           ∧ DefaultValue .single = .single 0 ∧ DefaultValue .double = .double 0
           ∧ DefaultValue .str = .str "") := by
  intro env name hne hnb hnf hget hgetU hup hsuf
  have hpt : parserTypeHint name = DataTypeFromSuffix (lastCharStr name) := by
    unfold parserTypeHint
    rw [if_neg hne]
  -- the kind GetOrCreate computes
  have hdt : (if parserTypeHint name = DataType.unknown
        then Environment.inferType (toUpperGo name) else parserTypeHint name) =
      (if DataTypeFromSuffix (lastCharStr name) = .unknown then .single
       else DataTypeFromSuffix (lastCharStr name)) := by
    rw [hpt]
    by_cases hu : DataTypeFromSuffix (lastCharStr name) = .unknown
    · rw [if_pos hu, if_pos hu, inferType_eq, hsuf, if_pos hu]
    · rw [if_neg hu, if_neg hu]
  refine ⟨_, rfl, ?_, ?_, by decide, by decide, by decide, by decide, by decide⟩
  · -- the evaluation result
    unfold evaluateIdentifier
    rw [if_neg hnb, if_neg hnf, hget]
    unfold Environment.getOrCreate
    simp only [hgetU, hdt]
  · -- reading the name back finds the default value
    cases env with
    | mk vars arrs consts parent =>
      have hconsts : List.lookup (toUpperGo name) consts = none := by
        cases hc : List.lookup (toUpperGo name) consts with
        | none => rfl
        | some w =>
          exfalso
          have hw : Environment.get (.mk vars arrs consts parent) name = some w := by
            unfold Environment.get
            simp only [hc]
          rw [hget] at hw
          exact Option.noConfusion hw
      have hset : Environment.set (.mk vars arrs consts parent) (toUpperGo name)
          (DefaultValue (if DataTypeFromSuffix (lastCharStr name) = .unknown
            then .single else DataTypeFromSuffix (lastCharStr name))) =
          .mk (upsert vars (toUpperGo name) (DefaultValue
            (if DataTypeFromSuffix (lastCharStr name) = .unknown
             then .single else DataTypeFromSuffix (lastCharStr name)))) arrs consts parent := by
        unfold Environment.set
        simp only [hup, hconsts, Option.isSome_none, Bool.false_eq_true, if_false]
      rw [hset]
      unfold Environment.get
      simp only [hconsts, lookup_upsert_self]

end XBasic

namespace XBasic

/-- C7 witness: the undeclared `X%` materialises as Integer 0 in the empty
environment. -/
theorem c7_auto_vivification_witness :
    evaluateIdentifier (.mk [] [] [] none) "X%" (parserTypeHint "X%") =
      .value (DefaultValue .integer)
        ((Environment.mk [] [] [] none).set (toUpperGo "X%") (DefaultValue .integer))
    ∧ (((Environment.mk [] [] [] none).set (toUpperGo "X%")
          (DefaultValue .integer)).get "X%") = some (DefaultValue .integer) := by
  obtain ⟨kind, hk, h1, h2, _⟩ := c7_auto_vivification (.mk [] [] [] none) "X%"
    (by decide) (by decide) (by decide) rfl rfl (by decide) (by decide)
  have hkind : kind = .integer := by rw [hk]; decide
  rw [hkind] at h1 h2
  exact ⟨h1, h2⟩

end XBasic

namespace XBasic

/-- head of a string, for stating the leading-character facts -/
def strHead (s : String) : Option Char := s.data.head?

theorem natDigits_ne_nil (n : ℕ) : natDigits n ≠ [] := by
  unfold natDigits
  split <;> simp

theorem natDigits_head_digit (n : ℕ) : ∃ k, (natDigits n).head? = some (digitChar k) := by
  induction n using Nat.strong_induction_on with
  | _ n ih =>
    unfold natDigits
    split
    · exact ⟨n, rfl⟩
    · rename_i h
      obtain ⟨k, hk⟩ := ih (n / 10) (Nat.div_lt_self (by omega) (by omega))
      refine ⟨k, ?_⟩
      rw [List.head?_append, hk]
      rfl

theorem digitChar_not_special (k : ℕ) : digitChar k ≠ ' ' ∧ digitChar k ≠ '-' := by
  unfold digitChar
  split <;> exact ⟨by decide, by decide⟩

theorem strHead_append_of_ne_nil (s t : String) (h : s.data ≠ []) :
    strHead (s ++ t) = strHead s := by
  unfold strHead
  rw [String.data_append, List.head?_append]
  cases hd : s.data with
  | nil => exact absurd hd h
  | cons a l => rfl

theorem strHead_natRepr (n : ℕ) : strHead (natRepr n) ≠ some ' ' := by
  obtain ⟨k, hk⟩ := natDigits_head_digit n
  show (natDigits n).head? ≠ some ' '
  rw [hk]
  intro hc
  exact (digitChar_not_special k).1 (by injection hc)

theorem strHead_intRepr_nonneg (n : ℤ) (h : 0 ≤ n) : strHead (intRepr n) ≠ some ' ' := by
  unfold intRepr
  rw [if_neg (not_lt.mpr h)]
  exact strHead_natRepr _

theorem strHead_intRepr_neg (n : ℤ) (h : n < 0) : strHead (intRepr n) = some '-' := by
  unfold intRepr
  rw [if_pos h]
  rfl

theorem empty_append_str (s : String) : "" ++ s = s := rfl

theorem strHead_ratRepr_nonneg (f : ℚ) (h : 0 ≤ f) : strHead (ratRepr f) ≠ some ' ' := by
  unfold ratRepr
  rw [if_neg (not_lt.mpr h), empty_append_str]
  rw [strHead_append_of_ne_nil _ _ (by
    rw [String.data_append]
    simp [natRepr])]
  rw [strHead_append_of_ne_nil _ _ (by simp [natRepr, natDigits_ne_nil])]
  exact strHead_natRepr _

theorem strHead_ratRepr_neg (f : ℚ) (h : f < 0) : strHead (ratRepr f) = some '-' := by
  unfold ratRepr
  rw [if_pos h]
  rw [strHead_append_of_ne_nil _ _ (by
    rw [String.data_append, String.data_append]
    simp)]
  rw [strHead_append_of_ne_nil _ _ (by
    rw [String.data_append]
    simp)]
  rfl

theorem strHead_formatFloat_nonneg (f : ℚ) (h : 0 ≤ f) :
    strHead (formatFloat f) ≠ some ' ' := by
  unfold formatFloat
  split
  · apply strHead_intRepr_nonneg
    rw [truncQ_of_nonneg h]
    exact Int.floor_nonneg.mpr h
  · exact strHead_ratRepr_nonneg f h

theorem strHead_formatFloat_neg (f : ℚ) (h : f < 0) :
    strHead (formatFloat f) = some '-' := by
  unfold formatFloat
  split
  · rename_i hc
    apply strHead_intRepr_neg
    have hlt : ((truncQ f : ℤ) : ℚ) < 0 := by rw [hc.1]; exact h
    exact_mod_cast hlt
  · exact strHead_ratRepr_neg f h

end XBasic

namespace XBasic

/-- C5: PRINT-statement rendering — a numeric item with non-negative value
is emitted as exactly one leading space followed by its plain rendering
(whose own first character is never a space), a negative numeric item is
emitted as its plain rendering which begins with the `-` sign; a `;`
separator emits nothing beyond the item itself; a `,` separator pads with
spaces to the next multiple of 14 columns (strictly advancing by at most
14); and the `NoNewline` flag — set by the parser exactly for a trailing
`,` or `;` — suppresses the terminating newline. -/
theorem c5_print_formatting :
    (∀ v : Value, IsNumeric v →
      (0 ≤ v.toFloat →
        formatValue v = " " ++ v.toStr ∧ strHead v.toStr ≠ some ' ')
      ∧ (v.toFloat < 0 →
        formatValue v = v.toStr ∧ strHead v.toStr = some '-'))
    ∧ (∀ (v : Value) (rest : List PrintItem) (col : ℕ) (out : String),
      printLoop ({ expression := some v, separator := ";" } :: rest) col out =
        printLoop rest (col + (formatValue v).utf8ByteSize) (out ++ formatValue v))
    ∧ (∀ (v : Value) (rest : List PrintItem) (col : ℕ) (out : String),
      printLoop ({ expression := some v, separator := "," } :: rest) col out =
        printLoop rest
          (col + (formatValue v).utf8ByteSize +
            (14 - (col + (formatValue v).utf8ByteSize) % 14))
          (out ++ formatValue v ++
            spacesStr (14 - (col + (formatValue v).utf8ByteSize) % 14))
      ∧ (col + (formatValue v).utf8ByteSize +
          (14 - (col + (formatValue v).utf8ByteSize) % 14)) % 14 = 0
      ∧ col + (formatValue v).utf8ByteSize <
          col + (formatValue v).utf8ByteSize +
            (14 - (col + (formatValue v).utf8ByteSize) % 14)
      ∧ col + (formatValue v).utf8ByteSize +
          (14 - (col + (formatValue v).utf8ByteSize) % 14) ≤
          col + (formatValue v).utf8ByteSize + 14)
    ∧ (∀ items : List PrintItem,
      executePrintStatement items true = (printLoop items 0 "").2
      ∧ executePrintStatement items false = (printLoop items 0 "").2 ++ "\n") := by
  refine ⟨?_, ?_, ?_, fun items => ⟨rfl, rfl⟩⟩
  · intro v hv
    cases v with
    | integer n =>
      constructor
      · intro h
        simp only [Value.toFloat] at h
        have hn : 0 ≤ n := by exact_mod_cast h
        refine ⟨?_, strHead_intRepr_nonneg n hn⟩
        simp only [formatValue, Value.toStr]
        rw [if_pos hn]
      · intro h
        simp only [Value.toFloat] at h
        have hn : n < 0 := by exact_mod_cast h
        refine ⟨?_, strHead_intRepr_neg n hn⟩
        simp only [formatValue, Value.toStr]
        rw [if_neg (not_le.mpr hn)]
    | long n =>
      constructor
      · intro h
        simp only [Value.toFloat] at h
        have hn : 0 ≤ n := by exact_mod_cast h
        refine ⟨?_, strHead_intRepr_nonneg n hn⟩
        simp only [formatValue, Value.toStr]
        rw [if_pos hn]
      · intro h
        simp only [Value.toFloat] at h
        have hn : n < 0 := by exact_mod_cast h
        refine ⟨?_, strHead_intRepr_neg n hn⟩
        simp only [formatValue, Value.toStr]
        rw [if_neg (not_le.mpr hn)]
    | single f =>
      constructor
      · intro h
        simp only [Value.toFloat] at h
        refine ⟨?_, strHead_formatFloat_nonneg f h⟩
        simp only [formatValue, Value.toStr]
        rw [if_pos h]
      · intro h
        simp only [Value.toFloat] at h
        refine ⟨?_, strHead_formatFloat_neg f h⟩
        simp only [formatValue, Value.toStr]
        rw [if_neg (not_le.mpr h)]
    | double f =>
      constructor
      · intro h
        simp only [Value.toFloat] at h
        refine ⟨?_, strHead_formatFloat_nonneg f h⟩
        simp only [formatValue, Value.toStr]
        rw [if_pos h]
      · intro h
        simp only [Value.toFloat] at h
        refine ⟨?_, strHead_formatFloat_neg f h⟩
        simp only [formatValue, Value.toStr]
        rw [if_neg (not_le.mpr h)]
    | str s => exact absurd hv (by simp [IsNumeric, Value.type])
  · intro v rest col out
    rfl
  · intro v rest col out
    refine ⟨rfl, ?_, ?_, ?_⟩ <;> omega

/-- C5 witness: the formatting facts at concrete items. -/
theorem c5_print_formatting_witness :
    formatValue (.integer 3) = " " ++ (Value.integer 3).toStr
    ∧ formatValue (.integer (-4)) = (Value.integer (-4)).toStr
    ∧ strHead (Value.integer (-4)).toStr = some '-'
    ∧ printLoop [{ expression := some (.integer 3), separator := ";" }] 0 "" =
        printLoop [] (0 + (formatValue (.integer 3)).utf8ByteSize)
          ("" ++ formatValue (.integer 3))
    ∧ (0 + (formatValue (.integer 3)).utf8ByteSize +
        (14 - (0 + (formatValue (.integer 3)).utf8ByteSize) % 14)) % 14 = 0
    ∧ executePrintStatement [] true = (printLoop [] 0 "").2 := by
  have h1 := (c5_print_formatting.1 (.integer 3) (by decide)).1
    (by norm_num [Value.toFloat])
  have h2 := (c5_print_formatting.1 (.integer (-4)) (by decide)).2
    (by norm_num [Value.toFloat])
  have h3 := c5_print_formatting.2.1 (.integer 3) [] 0 ""
  have h4 := (c5_print_formatting.2.2.1 (.integer 3) [] 0 "").2.1
  have h5 := (c5_print_formatting.2.2.2 []).1
  exact ⟨h1.1, h2.1, h2.2, h3, h4, h5⟩

end XBasic
